import Mathlib

/-!
Verification of the SpondKassierBot penalty-kitty core.

The ledger store (database.py) is modelled as a pure state machine:
each SQLite table becomes a list of row structures kept in rowid
(insertion) order, and AUTOINCREMENT becomes an explicit next-id
counter.  SQLite datetime values are modelled by an explicit
natural-number clock argument threaded into every inserting or
updating operation.  Monetary REAL amounts are modelled as rationals.

The reconciliation engine (spond_sync.py) becomes a pure fold over the
fetched event list; the Spond collaborator is modelled by passing the
fetched events and the group roster as inputs.
-/

/-- One row of the players table: id, name, optional external Spond id,
creation timestamp. -/
structure PlayerRow where
  id : Nat
  name : String
  spond_id : Option String
  created_at : Nat
  deriving DecidableEq, Repr

/-- One row of the penalty_catalog table. -/
structure CatalogRow where
  id : Nat
  name : String
  amount : ℚ
  created_at : Nat
  deriving DecidableEq, Repr

/-- One row of the penalties table.  event_id is NULL (none) for manual
penalties and set for sync-issued ones; paid_at is set only on payment. -/
structure PenaltyRow where
  id : Nat
  player_id : Nat
  reason : String
  amount : ℚ
  paid : Bool
  event_id : Option String
  created_at : Nat
  paid_at : Option Nat
  deriving DecidableEq, Repr

/-- The whole ledger store: the three tables plus the AUTOINCREMENT
counters of their primary keys. -/
structure LedgerState where
  players : List PlayerRow
  catalog : List CatalogRow
  penalties : List PenaltyRow
  nextPlayerId : Nat
  nextCatalogId : Nat
  nextPenaltyId : Nat
  deriving DecidableEq, Repr

/-- A fresh database, as produced by init_db before any insert
(AUTOINCREMENT ids start at 1).  The default catalog rows are
irrelevant to the claims and omitted from this constant; states
containing catalog rows are quantified over in the theorems. -/
def emptyLedger : LedgerState :=
  { players := [], catalog := [], penalties := [],
    nextPlayerId := 1, nextCatalogId := 1, nextPenaltyId := 1 }

/-- ASCII lowercasing, as performed by the SQLite LOWER function used in
database.py (Char.toLower also only maps the ASCII range). -/
def lowerStr (s : String) : String :=
  String.mk (s.data.map Char.toLower)

/-- Substring test on character lists: does the pattern occur inside the
haystack?  Models the SQL LIKE with a pattern of the shape percent,
search text, percent, for search text free of LIKE metacharacters. -/
def listContains (pat : List Char) : List Char → Bool
  | [] => pat.isEmpty
  | c :: t => pat.isPrefixOf (c :: t) || listContains pat t

/-- Case-insensitive substring match, as in the SQL
LOWER(name) LIKE LOWER(pattern) comparisons of database.py. -/
def strContainsCI (hay search : String) : Bool :=
  listContains (lowerStr search).data (lowerStr hay).data

/-- Python truthiness of an optional string (None and empty string are
falsy), used by get_or_create_player for its spond_id argument. -/
def optTruthy : Option String → Bool
  | some s => !s.isEmpty
  | none => false

/-- database.get_or_create_player: look up by spond_id first (when that
argument is truthy), then by case-insensitive name; attach the spond_id
to a name-matched row lacking one; otherwise insert a new row and
re-select it by name.  Returns the row the source returns (the row as
fetched, fetched before the UPDATE in the attach branch) and the new
state. -/
def get_or_create_player (name : String) (sid : Option String) (now : Nat)
    (s : LedgerState) : PlayerRow × LedgerState :=
  let bySpond : Option PlayerRow :=
    if optTruthy sid then s.players.find? (fun p => p.spond_id == sid) else none
  match bySpond with
  | some p => (p, s)
  | none =>
    match s.players.find? (fun p => lowerStr p.name == lowerStr name) with
    | some p =>
      if optTruthy sid && !(optTruthy p.spond_id) then
        (p, { s with players :=
                s.players.map (fun q =>
                  if q.id == p.id then { q with spond_id := sid } else q) })
      else (p, s)
    | none =>
      let row : PlayerRow :=
        { id := s.nextPlayerId, name := name, spond_id := sid, created_at := now }
      let s1 : LedgerState :=
        { s with players := s.players ++ [row], nextPlayerId := s.nextPlayerId + 1 }
      ((s1.players.find? (fun p => lowerStr p.name == lowerStr name)).getD row, s1)

/-- database.find_player: first row whose name contains the search text
case-insensitively (first in rowid order, as SQLite fetchone scans). -/
def find_player (search : String) (s : LedgerState) : Option PlayerRow :=
  s.players.find? (fun p => strContainsCI p.name search)

/-- database.add_catalog_entry: INSERT OR REPLACE keyed on the unique
name column (exact, case-sensitive comparison), then re-select the row
by exact name.  The replaced row is deleted and the new row gets a
fresh id at the end of the table. -/
def add_catalog_entry (name : String) (amount : ℚ) (now : Nat)
    (s : LedgerState) : CatalogRow × LedgerState :=
  let row : CatalogRow :=
    { id := s.nextCatalogId, name := name, amount := amount, created_at := now }
  let s1 : LedgerState :=
    { s with catalog := s.catalog.filter (fun c => c.name != name) ++ [row],
             nextCatalogId := s.nextCatalogId + 1 }
  ((s1.catalog.find? (fun c => c.name == name)).getD row, s1)

/-- database.find_catalog_entry: case-insensitive substring match on the
catalog name, first row in rowid order. -/
def find_catalog_entry (search : String) (s : LedgerState) : Option CatalogRow :=
  s.catalog.find? (fun c => strContainsCI c.name search)

/-- database.add_penalty: unconditional insert of a penalty row; returns
the inserted row (selected back via last_insert_rowid). -/
def add_penalty (pid : Nat) (reason : String) (amount : ℚ)
    (eid : Option String) (now : Nat) (s : LedgerState) :
    PenaltyRow × LedgerState :=
  let row : PenaltyRow :=
    { id := s.nextPenaltyId, player_id := pid, reason := reason,
      amount := amount, paid := false, event_id := eid,
      created_at := now, paid_at := none }
  (row, { s with penalties := s.penalties ++ [row],
                 nextPenaltyId := s.nextPenaltyId + 1 })

/-- database.mark_paid: UPDATE penalties SET paid, paid_at WHERE the row
belongs to the player and is unpaid; returns the number of rows the
UPDATE touched. -/
def mark_paid (pid : Nat) (now : Nat) (s : LedgerState) : Nat × LedgerState :=
  let n := (s.penalties.filter (fun r => r.player_id == pid && !r.paid)).length
  (n, { s with penalties :=
          s.penalties.map (fun r =>
            if r.player_id == pid && !r.paid then
              { r with paid := true, paid_at := some now }
            else r) })

/-- database.penalty_exists: COUNT of penalties rows with the given
player id and the given (non-null) event id, compared against zero.
A SQL equality against a bound string never matches a NULL event_id,
so manual penalties are never counted. -/
def penalty_exists (pid : Nat) (eid : String) (s : LedgerState) : Bool :=
  s.penalties.any (fun r => r.player_id == pid && r.event_id == some eid)

/-- Number of penalty rows for one (player, event) pair. -/
def penCount (pid : Nat) (eid : String) (s : LedgerState) : Nat :=
  s.penalties.countP (fun r => r.player_id == pid && r.event_id == some eid)

/-- Number of player rows carrying the given external id. -/
def spondCount (x : String) (s : LedgerState) : Nat :=
  s.players.countP (fun p => p.spond_id == some x)

/-- Number of unpaid penalty rows of one player. -/
def openCount (pid : Nat) (s : LedgerState) : Nat :=
  s.penalties.countP (fun r => r.player_id == pid && !r.paid)

/-- Number of penalty rows tagged with the given event id. -/
def evPenCount (eid : String) (s : LedgerState) : Nat :=
  s.penalties.countP (fun r => r.event_id == some eid)

/-- Well-formedness of the players table as maintained by the code: all
ids are below the AUTOINCREMENT counter and are pairwise distinct. -/
def PlayersWF (s : LedgerState) : Prop :=
  (∀ p ∈ s.players, p.id < s.nextPlayerId) ∧
    (s.players.map (fun p => p.id)).Nodup

/-- One entry of a Spond response id-list: the upstream API delivers
either a bare string id, or a record that may or may not carry an id
field, or something else entirely (modelled by the last constructor). -/
inductive RespEntry where
  | bare (s : String)
  | record (idField : Option String)
  | other
  deriving DecidableEq, Repr

/-- The id extractable from one response-list entry, exactly as the loop
body of extract_ids in spond_sync.py classifies it: a bare string is
taken as is, a record yields its id field when present, everything else
yields nothing. -/
def entryId : RespEntry → Option String
  | .bare s => some s
  | .record o => o
  | .other => none

/-- spond_sync.extract_ids: collect the member ids of a response list,
silently dropping entries from which no id is extractable.  The Python
set is modelled as a list considered up to membership. -/
def extract_ids (items : List RespEntry) : List String :=
  items.filterMap entryId

/-- The responses dictionary of one event: the four id-lists read by the
sync code; a key absent from the payload is the empty list (the source
reads each with a .get defaulting to an empty list). -/
structure Responses where
  acceptedIds : List RespEntry
  declinedIds : List RespEntry
  waitinglistIds : List RespEntry
  unconfirmedIds : List RespEntry
  deriving DecidableEq, Repr

/-- One fetched Spond event, with the fields the sync code and the spec
read: id, optional heading, start timestamp, the responses structure,
and the cancelled and expired flags delivered by the collaborator. -/
structure SyncEvent where
  id : String
  heading : Option String
  startTimestamp : String
  responses : Responses
  cancelled : Bool
  expired : Bool
  deriving DecidableEq, Repr

/-- One group roster member (missing name fields are the empty string,
matching the .get defaults in the source). -/
structure Member where
  id : String
  firstName : String
  lastName : String
  deriving DecidableEq, Repr

/-- Removal of leading and trailing whitespace, modelling the Python
str.strip() call on the display name (kept executable over the
character list so that concrete runs reduce). -/
def strTrim (s : String) : String :=
  String.mk
    (((s.data.dropWhile Char.isWhitespace).reverse.dropWhile
        Char.isWhitespace).reverse)

/-- Display name of a member: first name, space, last name, stripped,
as built by the sync loop. -/
def fullName (m : Member) : String :=
  strTrim (m.firstName ++ " " ++ m.lastName)

/-- The members dictionary built from the roster (a Python dict
comprehension keyed by member id: a later duplicate id overwrites an
earlier one, hence the reversed search). -/
def lookupMember (roster : List Member) (i : String) : Option Member :=
  roster.reverse.find? (fun m => m.id == i)

/-- The invited set: all group member ids (the keys of the members
dictionary), modelled as the deduplicated id list. -/
def invitedIds (roster : List Member) : List String :=
  (roster.map (fun m => m.id)).dedup

/-- Union of the four normalized response id-lists (membership models
the Python set union). -/
def respondedIds (rs : Responses) : List String :=
  extract_ids rs.acceptedIds ++ extract_ids rs.declinedIds ++
    extract_ids rs.waitinglistIds ++ extract_ids rs.unconfirmedIds

/-- The no-reply set of one event: invited member ids minus the union of
the normalized response lists (the Python set difference, iterated here
in roster order). -/
def noReplyIds (roster : List Member) (rs : Responses) : List String :=
  (invitedIds roster).filter (fun i => !(respondedIds rs).contains i)

/-- Event display name with the source default for a missing heading. -/
def eventName (ev : SyncEvent) : String :=
  ev.heading.getD "Unbekannt"

/-- One detail line of the sync report, as formatted by the source. -/
def detailLine (nm : String) (ev : SyncEvent) : String :=
  "  ⚠️ " ++ nm ++ " → " ++ eventName ev ++ " (" ++ ev.startTimestamp.take 10 ++ ")"

/-- The report dictionary built by sync_spond in spond_sync.py, with
exactly its four keys. -/
structure SyncResult where
  events_checked : Nat
  new_penalties : Nat
  players_synced : Nat
  details : List String
  deriving DecidableEq, Repr

/-- Body of the inner member loop of sync_spond: resolve the member from
the roster dictionary, skip an empty display name, upsert the player,
count it as synced, and issue the penalty unless one already exists for
this (player, event) pair. -/
def syncMember (ev : SyncEvent) (roster : List Member) (amount : ℚ) (now : Nat)
    (acc : SyncResult × LedgerState) (mid : String) : SyncResult × LedgerState :=
  match lookupMember roster mid with
  | none => acc
  | some m =>
    if fullName m = "" then acc
    else
      let pr := get_or_create_player (fullName m) (some mid) now acc.2
      let res1 := { acc.1 with players_synced := acc.1.players_synced + 1 }
      if penalty_exists pr.1.id ev.id pr.2 then (res1, pr.2)
      else
        let ap := add_penalty pr.1.id ("Spond nicht beantwortet: " ++ eventName ev)
          amount (some ev.id) now pr.2
        ({ res1 with new_penalties := res1.new_penalties + 1,
                     details := res1.details ++ [detailLine (fullName m) ev] }, ap.2)

/-- Body of the event loop of sync_spond: classify the responses and run
the member loop over the no-reply set. -/
def syncEvent (roster : List Member) (amount : ℚ) (now : Nat)
    (acc : SyncResult × LedgerState) (ev : SyncEvent) : SyncResult × LedgerState :=
  (noReplyIds roster ev.responses).foldl (syncMember ev roster amount now) acc

/-- spond_sync.sync_spond as it stands in src/spond_sync.py: the fetched
events and the group roster are inputs (the network fetches are handled
by sync_spond_run below); events_checked is set to the number of
fetched events before the loop, then every event is processed. -/
def sync_spond (events : List SyncEvent) (roster : List Member) (amount : ℚ)
    (now : Nat) (s : LedgerState) : SyncResult × LedgerState :=
  events.foldl (syncEvent roster amount now)
    ({ events_checked := events.length, new_penalties := 0,
       players_synced := 0, details := [] }, s)

/-- The fetch-then-reconcile flow of sync_spond including its error
behavior: the body runs under a try block whose finally clause only
closes the HTTP session, so a failing collaborator fetch (events first,
then the group) propagates to the caller unchanged and no report is
produced; the report is returned only when both fetches succeed. -/
def sync_spond_run (fetchedEvents : Except String (List SyncEvent))
    (fetchedGroup : Except String (List Member)) (amount : ℚ) (now : Nat)
    (s : LedgerState) : Except String (SyncResult × LedgerState) :=
  match fetchedEvents with
  | .error e => .error e
  | .ok events =>
    match fetchedGroup with
    | .error e => .error e
    | .ok roster => .ok (sync_spond events roster amount now s)

/-- Members of one event that the inner loop actually processes: the
no-reply ids that resolve to a roster member with a non-empty display
name. -/
def eligibleIds (roster : List Member) (ev : SyncEvent) : List String :=
  (noReplyIds roster ev.responses).filter (fun i =>
    match lookupMember roster i with
    | some m => fullName m != ""
    | none => false)

/-- The manual penalty assignment of the bot command layer (bot.py,
cmd_strafe_direkt): look the reason up in the catalog first; on a hit
the catalog amount and canonical name replace the typed ones; then the
player is upserted by name (no external id) and the penalty inserted
with a null event id. -/
def strafe_direkt_assign (pname reason0 : String) (amount0 : ℚ) (now : Nat)
    (s : LedgerState) : PenaltyRow × LedgerState :=
  match find_catalog_entry reason0 s with
  | some e =>
    let pr := get_or_create_player pname none now s
    add_penalty pr.1.id e.name e.amount none now pr.2
  | none =>
    let pr := get_or_create_player pname none now s
    add_penalty pr.1.id reason0 amount0 none now pr.2

theorem listContains_nil (l : List Char) : listContains [] l = true := by
  cases l <;> simp [listContains, List.isPrefixOf]

theorem gocp_penalties (name : String) (sid : Option String) (now : Nat)
    (s : LedgerState) :
    ((get_or_create_player name sid now s).2).penalties = s.penalties := by
  simp only [get_or_create_player]
  split
  · rfl
  · split
    · split <;> rfl
    · rfl

theorem gocp_catalog (name : String) (sid : Option String) (now : Nat)
    (s : LedgerState) :
    ((get_or_create_player name sid now s).2).catalog = s.catalog := by
  simp only [get_or_create_player]
  split
  · rfl
  · split
    · split <;> rfl
    · rfl

/-- C10: calling find_player with the empty string matches every player
row (the substring pattern matches all names), so it returns a player
whenever the players table is non-empty, and returns the absent value
exactly when no player exists at all. -/
theorem find_player_empty_search (s : LedgerState) :
    (s.players ≠ [] → (find_player "" s).isSome = true)
  ∧ (find_player "" s = none ↔ s.players = []) := by
  have hp : ∀ p : PlayerRow, strContainsCI p.name "" = true := by
    intro p
    simpa [strContainsCI, lowerStr] using listContains_nil (lowerStr p.name).data
  cases h : s.players with
  | nil => simp [find_player, h]
  | cons a t => simp [find_player, h, List.find?, hp a]

/-- Witness for C10 at a one-player store. -/
theorem find_player_empty_search_witness :
    ({ emptyLedger with
        players := [{ id := 1, name := "Max Mustermann", spond_id := none,
                      created_at := 0 }],
        nextPlayerId := 2 } : LedgerState).players ≠ [] ∧
    (find_player "" { emptyLedger with
        players := [{ id := 1, name := "Max Mustermann", spond_id := none,
                      created_at := 0 }],
        nextPlayerId := 2 }).isSome = true :=
  ⟨by decide, (find_player_empty_search _).1 (by decide)⟩

/-- C7: mark_paid flips exactly the currently-unpaid penalties of the
given player to paid, stamps their paid timestamp with the current
time, returns the number of rows affected, leaves the other tables and
every other penalty row (other players, already-paid rows) unchanged,
is a strict no-op returning 0 when the player has no open penalty, and
leaves the player with zero open penalties. -/
theorem mark_paid_correct (pid now : Nat) (s : LedgerState) :
    (mark_paid pid now s).1 = openCount pid s
  ∧ ((mark_paid pid now s).2).players = s.players
  ∧ ((mark_paid pid now s).2).catalog = s.catalog
  ∧ ((mark_paid pid now s).2).penalties.length = s.penalties.length
  ∧ (∀ i, ∀ h1 : i < s.penalties.length,
      ∀ h2 : i < ((mark_paid pid now s).2).penalties.length,
      ((s.penalties[i].player_id = pid ∧ s.penalties[i].paid = false) →
        ((mark_paid pid now s).2).penalties[i] =
          { s.penalties[i] with paid := true, paid_at := some now })
      ∧ ((s.penalties[i].player_id ≠ pid ∨ s.penalties[i].paid = true) →
        ((mark_paid pid now s).2).penalties[i] = s.penalties[i]))
  ∧ (openCount pid s = 0 → mark_paid pid now s = (0, s))
  ∧ openCount pid ((mark_paid pid now s).2) = 0 := by
  refine ⟨?_, rfl, rfl, by simp [mark_paid], ?_, ?_, ?_⟩
  · simp [mark_paid, openCount, List.countP_eq_length_filter]
  · intro i h1 h2
    constructor
    · intro hcase
      simp only [mark_paid, List.getElem_map]
      have hb : (s.penalties[i].player_id == pid && !s.penalties[i].paid) = true := by
        simp [hcase.1, hcase.2]
      simp [hb]
    · intro hcase
      simp only [mark_paid, List.getElem_map]
      have hb : (s.penalties[i].player_id == pid && !s.penalties[i].paid) = false := by
        rcases hcase with hne | hpd
        · simp [hne]
        · simp [hpd]
      simp [hb]
  · intro h0
    have hall : ∀ r ∈ s.penalties, ¬ ((r.player_id == pid && !r.paid) = true) := by
      rw [openCount, List.countP_eq_zero] at h0
      exact h0
    have hn : (s.penalties.filter (fun r => r.player_id == pid && !r.paid)).length = 0 := by
      rw [← List.countP_eq_length_filter]
      rw [openCount, List.countP_eq_zero] at h0
      exact List.countP_eq_zero.mpr h0
    have hmap : (s.penalties.map (fun r =>
        if r.player_id == pid && !r.paid then
          { r with paid := true, paid_at := some now } else r)) = s.penalties := by
      calc (s.penalties.map (fun r =>
            if r.player_id == pid && !r.paid then
              { r with paid := true, paid_at := some now } else r))
          = s.penalties.map id := by
            apply List.map_congr_left
            intro r hr
            have := hall r hr
            simp only [id]
            rw [if_neg this]
        _ = s.penalties := List.map_id _
    simp only [mark_paid, hn, hmap]
  · rw [openCount, List.countP_eq_zero]
    intro r hr
    simp only [mark_paid, List.mem_map] at hr
    obtain ⟨r0, _, hr0⟩ := hr
    by_cases hb : (r0.player_id == pid && !r0.paid) = true
    · rw [if_pos hb] at hr0
      subst hr0
      simp
    · rw [if_neg hb] at hr0
      subst hr0
      exact hb

/-- Sample store for the mark_paid witness: player 1 has one open and
one paid penalty, player 2 has one open penalty, player 3 has none. -/
def markPaidSample : LedgerState :=
  { emptyLedger with
    players := [{ id := 1, name := "Max", spond_id := none, created_at := 0 },
                { id := 2, name := "Mia", spond_id := none, created_at := 0 }],
    penalties :=
      [{ id := 1, player_id := 1, reason := "a", amount := 2, paid := false,
         event_id := none, created_at := 0, paid_at := none },
       { id := 2, player_id := 1, reason := "b", amount := 5, paid := true,
         event_id := none, created_at := 0, paid_at := some 3 },
       { id := 3, player_id := 2, reason := "c", amount := 3, paid := false,
         event_id := none, created_at := 0, paid_at := none }],
    nextPlayerId := 3, nextPenaltyId := 4 }

/-- Witness for C7: concrete applications of mark_paid_correct, with
each hypothesis discharged at the sample store. -/
theorem mark_paid_correct_witness :
    (mark_paid 1 9 markPaidSample).1 = openCount 1 markPaidSample
  ∧ ((mark_paid 1 9 markPaidSample).2).penalties[0] =
      { markPaidSample.penalties[0] with paid := true, paid_at := some 9 }
  ∧ ((mark_paid 1 9 markPaidSample).2).penalties[1] = markPaidSample.penalties[1]
  ∧ ((mark_paid 1 9 markPaidSample).2).penalties[2] = markPaidSample.penalties[2]
  ∧ mark_paid 3 9 markPaidSample = (0, markPaidSample)
  ∧ openCount 1 ((mark_paid 1 9 markPaidSample).2) = 0 :=
  ⟨(mark_paid_correct 1 9 markPaidSample).1,
   (((mark_paid_correct 1 9 markPaidSample).2.2.2.2.1 0 (by decide) (by decide)).1
     (by decide)),
   (((mark_paid_correct 1 9 markPaidSample).2.2.2.2.1 1 (by decide) (by decide)).2
     (by decide)),
   (((mark_paid_correct 1 9 markPaidSample).2.2.2.2.1 2 (by decide) (by decide)).2
     (by decide)),
   ((mark_paid_correct 3 9 markPaidSample).2.2.2.2.2.1 (by decide)),
   (mark_paid_correct 1 9 markPaidSample).2.2.2.2.2.2⟩

/-- C8: changing a catalog entry afterwards leaves every already-issued
penalty row unchanged, because the manual assignment path copies the
catalog amount (and canonical name) into the penalty row at issuance
instead of referencing the catalog entry. -/
theorem catalog_amount_copied (s : LedgerState) (pname reason : String)
    (amt : ℚ) (now now2 : Nat) (cname : String) (newAmt : ℚ) :
    ((add_catalog_entry cname newAmt now2
        ((strafe_direkt_assign pname reason amt now s).2)).2).penalties
      = ((strafe_direkt_assign pname reason amt now s).2).penalties
  ∧ (strafe_direkt_assign pname reason amt now s).1
      ∈ ((strafe_direkt_assign pname reason amt now s).2).penalties
  ∧ (∀ e, find_catalog_entry reason s = some e →
      (strafe_direkt_assign pname reason amt now s).1.amount = e.amount
      ∧ (strafe_direkt_assign pname reason amt now s).1.reason = e.name) := by
  refine ⟨rfl, ?_, ?_⟩
  · cases hfc : find_catalog_entry reason s with
    | some e => simp [strafe_direkt_assign, hfc, add_penalty]
    | none => simp [strafe_direkt_assign, hfc, add_penalty]
  · intro e he
    simp [strafe_direkt_assign, he, add_penalty]

/-- Sample store for the catalog-copy witness: the catalog holds the
entry Gelbe Karte worth 5. -/
def catalogSample : LedgerState :=
  { emptyLedger with
    catalog := [{ id := 1, name := "Gelbe Karte", amount := 5, created_at := 0 }],
    nextCatalogId := 2 }

/-- Witness for C8: a manual Gelbe Karte penalty carries amount 5 even
after the catalog entry is changed to 7. -/
theorem catalog_amount_copied_witness :
    ((add_catalog_entry "Gelbe Karte" 7 8
        ((strafe_direkt_assign "Max" "Gelbe Karte" 99 4 catalogSample).2)).2).penalties
      = ((strafe_direkt_assign "Max" "Gelbe Karte" 99 4 catalogSample).2).penalties
  ∧ (strafe_direkt_assign "Max" "Gelbe Karte" 99 4 catalogSample).1.amount = 5 :=
  ⟨(catalog_amount_copied catalogSample "Max" "Gelbe Karte" 99 4 8 "Gelbe Karte" 7).1,
   by
    have h := (catalog_amount_copied catalogSample "Max" "Gelbe Karte" 99 4 8
      "Gelbe Karte" 7).2.2 (⟨1, "Gelbe Karte", 5, 0⟩ : CatalogRow) (by decide)
    rw [h.1]⟩

/-- C6: a failing collaborator fetch (of the events, or of the group
roster) aborts the reconciliation run: the error value propagates to
the caller unchanged (no retry, since each fetch happens once), and a
report is produced exactly when both fetches succeed, so the caller
never receives a partial report. -/
theorem collaborator_failure_aborts (e : String) (amount : ℚ) (now : Nat)
    (s : LedgerState) :
    (∀ ge, sync_spond_run (Except.error e) ge amount now s = Except.error e)
  ∧ (∀ evs, sync_spond_run (Except.ok evs) (Except.error e) amount now s
      = Except.error e)
  ∧ (∀ evs roster, sync_spond_run (Except.ok evs) (Except.ok roster) amount now s
      = Except.ok (sync_spond evs roster amount now s)) :=
  ⟨fun _ => rfl, fun _ => rfl, fun _ _ => rfl⟩

/-- C5: the no-reply set is the invited member-id set minus the union of
the four normalized response lists; an id-list entry contributes its
id whether it is a bare identifier or a record with an id field (the
two shapes are interchangeable inside a list), and entries with no
extractable id are silently dropped. -/
theorem no_reply_classification (roster : List Member) (rs : Responses) :
    (∀ x, x ∈ noReplyIds roster rs ↔
      (x ∈ roster.map (fun m => m.id) ∧ x ∉ respondedIds rs))
  ∧ (∀ items : List RespEntry, ∀ x, x ∈ extract_ids items ↔
      ∃ it ∈ items, entryId it = some x)
  ∧ (∀ x, x ∈ respondedIds rs ↔
      (x ∈ extract_ids rs.acceptedIds ∨ x ∈ extract_ids rs.declinedIds ∨
       x ∈ extract_ids rs.waitinglistIds ∨ x ∈ extract_ids rs.unconfirmedIds))
  ∧ (∀ pre post : List RespEntry, ∀ i, extract_ids (pre ++ RespEntry.bare i :: post)
      = extract_ids (pre ++ RespEntry.record (some i) :: post))
  ∧ (∀ pre post : List RespEntry, extract_ids (pre ++ RespEntry.record none :: post)
      = extract_ids (pre ++ post))
  ∧ (∀ pre post : List RespEntry, extract_ids (pre ++ RespEntry.other :: post)
      = extract_ids (pre ++ post)) := by
  refine ⟨?_, ?_, ?_, ?_, ?_, ?_⟩
  · intro x
    simp [noReplyIds, invitedIds, List.mem_filter, List.mem_dedup]
  · intro items x
    simp [extract_ids, List.mem_filterMap]
  · intro x
    simp [respondedIds]
  · intro pre post i
    simp [extract_ids, entryId]
  · intro pre post
    simp [extract_ids, entryId]
  · intro pre post
    simp [extract_ids, entryId]

/-- Witness for C5 on a concrete payload: member b is the only
no-reply, and the bare and record shapes classify alike. -/
theorem no_reply_classification_witness :
    ("b" ∈ noReplyIds
        [{ id := "a", firstName := "A", lastName := "X" },
         { id := "b", firstName := "B", lastName := "Y" }]
        { acceptedIds := [RespEntry.bare "a"], declinedIds := [],
          waitinglistIds := [], unconfirmedIds := [RespEntry.record none] }
      ↔ True)
  ∧ extract_ids [RespEntry.bare "a", RespEntry.record none]
      = extract_ids [RespEntry.record (some "a"), RespEntry.record none] :=
  ⟨by
    have h := (no_reply_classification
      [{ id := "a", firstName := "A", lastName := "X" },
       { id := "b", firstName := "B", lastName := "Y" }]
      { acceptedIds := [RespEntry.bare "a"], declinedIds := [],
        waitinglistIds := [], unconfirmedIds := [RespEntry.record none] }).1 "b"
    rw [h]
    simp [respondedIds, extract_ids, entryId],
   (no_reply_classification [] ⟨[], [], [], []⟩).2.2.2.1 [] [RespEntry.record none] "a"⟩

theorem syncMember_psync (ev : SyncEvent) (roster : List Member) (amount : ℚ)
    (now : Nat) (acc : SyncResult × LedgerState) (mid : String) :
    ((syncMember ev roster amount now acc mid).1).players_synced
      = acc.1.players_synced +
        (if (match lookupMember roster mid with
             | some m => fullName m != ""
             | none => false) = true then 1 else 0) := by
  simp only [syncMember]
  cases hm : lookupMember roster mid with
  | none => simp
  | some m =>
    dsimp only
    by_cases hn : fullName m = ""
    · simp [hn]
    · rw [if_neg hn]
      split <;> simp [hn]

theorem memberFold_psync (ev : SyncEvent) (roster : List Member) (amount : ℚ)
    (now : Nat) :
    ∀ (mids : List String) (acc : SyncResult × LedgerState),
    ((mids.foldl (syncMember ev roster amount now) acc).1).players_synced
      = acc.1.players_synced +
        (mids.filter (fun i =>
          match lookupMember roster i with
          | some m => fullName m != ""
          | none => false)).length := by
  intro mids
  induction mids with
  | nil => intro acc; simp
  | cons h t ih =>
    intro acc
    rw [List.foldl_cons, ih, syncMember_psync]
    by_cases hb : (match lookupMember roster h with
        | some m => fullName m != ""
        | none => false) = true
    · simp only [List.filter_cons, hb, if_true, List.length_cons]
      omega
    · simp [List.filter_cons, hb]

/-- C9: the players_synced count of a run is one per processed
(event, no-reply member) pair surviving the name filter, not one per
distinct player, so a player missing k events contributes k. -/
theorem players_synced_counts_pairs (events : List SyncEvent)
    (roster : List Member) (amount : ℚ) (now : Nat) (s : LedgerState) :
    ((sync_spond events roster amount now s).1).players_synced
      = (events.map (fun ev => (eligibleIds roster ev).length)).sum := by
  suffices h : ∀ (evs : List SyncEvent) (acc : SyncResult × LedgerState),
      ((evs.foldl (syncEvent roster amount now) acc).1).players_synced
        = acc.1.players_synced +
          (evs.map (fun ev => (eligibleIds roster ev).length)).sum by
    rw [sync_spond, h]
    simp
  intro evs
  induction evs with
  | nil => intro acc; simp
  | cons h t ih =>
    intro acc
    rw [List.foldl_cons, ih, List.map_cons, List.sum_cons]
    rw [syncEvent, memberFold_psync, eligibleIds]
    omega

theorem pe_iff (pid : Nat) (eid : String) (s : LedgerState) :
    penalty_exists pid eid s = true ↔ 1 ≤ penCount pid eid s := by
  constructor
  · intro h
    obtain ⟨r, hr, hp⟩ := List.any_eq_true.mp h
    exact List.countP_pos_iff.mpr ⟨r, hr, hp⟩
  · intro h
    obtain ⟨r, hr, hp⟩ := List.countP_pos_iff.mp h
    exact List.any_eq_true.mpr ⟨r, hr, hp⟩

theorem penCount_gocp (pid : Nat) (eid n : String) (sid : Option String)
    (now : Nat) (s : LedgerState) :
    penCount pid eid ((get_or_create_player n sid now s).2) = penCount pid eid s := by
  rw [penCount, penCount, gocp_penalties]

theorem penCount_add_penalty (pid : Nat) (eid : String) (pid2 : Nat)
    (r : String) (a : ℚ) (e : Option String) (now : Nat) (s : LedgerState) :
    penCount pid eid ((add_penalty pid2 r a e now s).2)
      = penCount pid eid s + (if (pid2 == pid && e == some eid) = true then 1 else 0) := by
  simp only [add_penalty, penCount]
  rw [List.countP_append, List.countP_cons, List.countP_nil]
  simp

theorem countP_congr_mem {α : Type} (p q : α → Bool) :
    ∀ l : List α, (∀ a ∈ l, p a = q a) → l.countP p = l.countP q := by
  intro l
  induction l with
  | nil => intro _; rfl
  | cons a t ih =>
    intro h
    rw [List.countP_cons, List.countP_cons, h a (by simp),
      ih (fun b hb => h b (by simp [hb]))]

theorem syncMember_penCount_keep (ev : SyncEvent) (roster : List Member)
    (amount : ℚ) (now : Nat) (acc : SyncResult × LedgerState) (mid : String)
    (pid : Nat) (eid : String) (h : 1 ≤ penCount pid eid acc.2) :
    penCount pid eid ((syncMember ev roster amount now acc mid).2)
      = penCount pid eid acc.2 := by
  simp only [syncMember]
  cases hm : lookupMember roster mid with
  | none => rfl
  | some m =>
    dsimp only
    by_cases hn : fullName m = ""
    · rw [if_pos hn]
    · rw [if_neg hn]
      by_cases hpe : penalty_exists
          (get_or_create_player (fullName m) (some mid) now acc.2).1.id ev.id
          (get_or_create_player (fullName m) (some mid) now acc.2).2 = true
      · rw [if_pos hpe]
        exact penCount_gocp pid eid (fullName m) (some mid) now acc.2
      · rw [if_neg hpe]
        dsimp only
        rw [penCount_add_penalty, penCount_gocp]
        by_cases hc : ((get_or_create_player (fullName m) (some mid) now acc.2).1.id
            == pid && (some ev.id : Option String) == some eid) = true
        · exfalso
          rw [Bool.and_eq_true] at hc
          obtain ⟨h1, h2⟩ := hc
          apply hpe
          rw [eq_of_beq h1]
          have heid : ev.id = eid := by
            have := eq_of_beq h2
            exact Option.some_injective _ this
          rw [heid, pe_iff, penCount_gocp]
          exact h
        · rw [if_neg hc, Nat.add_zero]

theorem syncMember_penCount_le (ev : SyncEvent) (roster : List Member)
    (amount : ℚ) (now : Nat) (acc : SyncResult × LedgerState) (mid : String)
    (pid : Nat) (eid : String) (h : penCount pid eid acc.2 ≤ 1) :
    penCount pid eid ((syncMember ev roster amount now acc mid).2) ≤ 1 := by
  simp only [syncMember]
  cases hm : lookupMember roster mid with
  | none => exact h
  | some m =>
    dsimp only
    by_cases hn : fullName m = ""
    · rw [if_pos hn]; exact h
    · rw [if_neg hn]
      by_cases hpe : penalty_exists
          (get_or_create_player (fullName m) (some mid) now acc.2).1.id ev.id
          (get_or_create_player (fullName m) (some mid) now acc.2).2 = true
      · rw [if_pos hpe]
        rw [penCount_gocp]
        exact h
      · rw [if_neg hpe]
        dsimp only
        rw [penCount_add_penalty, penCount_gocp]
        by_cases hc : ((get_or_create_player (fullName m) (some mid) now acc.2).1.id
            == pid && (some ev.id : Option String) == some eid) = true
        · have hc2 := hc
          rw [Bool.and_eq_true] at hc2
          obtain ⟨h1, h2⟩ := hc2
          have hz : penCount pid eid acc.2 = 0 := by
            by_contra hnz
            apply hpe
            have heid : ev.id = eid := Option.some_injective _ (eq_of_beq h2)
            rw [eq_of_beq h1, heid, pe_iff, penCount_gocp]
            omega
          rw [hz, if_pos hc]
        · rw [if_neg hc, Nat.add_zero]
          exact h

theorem memberFold_penCount_keep (ev : SyncEvent) (roster : List Member)
    (amount : ℚ) (now : Nat) (pid : Nat) (eid : String) :
    ∀ (mids : List String) (acc : SyncResult × LedgerState),
      1 ≤ penCount pid eid acc.2 →
      penCount pid eid ((mids.foldl (syncMember ev roster amount now) acc).2)
        = penCount pid eid acc.2 := by
  intro mids
  induction mids with
  | nil => intro acc _; rfl
  | cons hd t ih =>
    intro acc h
    rw [List.foldl_cons]
    have hstep := syncMember_penCount_keep ev roster amount now acc hd pid eid h
    rw [ih _ (by rw [hstep]; exact h), hstep]

theorem memberFold_penCount_le (ev : SyncEvent) (roster : List Member)
    (amount : ℚ) (now : Nat) (pid : Nat) (eid : String) :
    ∀ (mids : List String) (acc : SyncResult × LedgerState),
      penCount pid eid acc.2 ≤ 1 →
      penCount pid eid ((mids.foldl (syncMember ev roster amount now) acc).2) ≤ 1 := by
  intro mids
  induction mids with
  | nil => intro acc h; exact h
  | cons hd t ih =>
    intro acc h
    rw [List.foldl_cons]
    exact ih _ (syncMember_penCount_le ev roster amount now acc hd pid eid h)

theorem eventFold_penCount_keep (roster : List Member) (amount : ℚ) (now : Nat)
    (pid : Nat) (eid : String) :
    ∀ (evs : List SyncEvent) (acc : SyncResult × LedgerState),
      1 ≤ penCount pid eid acc.2 →
      penCount pid eid ((evs.foldl (syncEvent roster amount now) acc).2)
        = penCount pid eid acc.2 := by
  intro evs
  induction evs with
  | nil => intro acc _; rfl
  | cons hd t ih =>
    intro acc h
    rw [List.foldl_cons]
    have hstep : penCount pid eid ((syncEvent roster amount now acc hd).2)
        = penCount pid eid acc.2 := by
      rw [syncEvent]
      exact memberFold_penCount_keep hd roster amount now pid eid _ acc h
    rw [ih _ (by rw [hstep]; exact h), hstep]

theorem eventFold_penCount_le (roster : List Member) (amount : ℚ) (now : Nat)
    (pid : Nat) (eid : String) :
    ∀ (evs : List SyncEvent) (acc : SyncResult × LedgerState),
      penCount pid eid acc.2 ≤ 1 →
      penCount pid eid ((evs.foldl (syncEvent roster amount now) acc).2) ≤ 1 := by
  intro evs
  induction evs with
  | nil => intro acc h; exact h
  | cons hd t ih =>
    intro acc h
    rw [List.foldl_cons]
    apply ih
    rw [syncEvent]
    exact memberFold_penCount_le hd roster amount now pid eid _ acc h

theorem gocp_wf (n : String) (sid : Option String) (now : Nat)
    (s : LedgerState) (h : PlayersWF s) :
    PlayersWF ((get_or_create_player n sid now s).2) := by
  simp only [get_or_create_player]
  split
  · exact h
  · split
    · split
      · rename_i p0 hfind hguard
        constructor
        · intro p hp
          simp only [List.mem_map] at hp
          obtain ⟨q, hq, rfl⟩ := hp
          by_cases hqe : (q.id == p0.id) = true
          · simp only [hqe, if_true]
            exact h.1 q hq
          · simp only [hqe, if_false]
            exact h.1 q hq
        · simp only
          rw [List.map_map]
          have hfun : ((fun p : PlayerRow => p.id) ∘ (fun q : PlayerRow =>
              if q.id == p0.id then { q with spond_id := sid } else q))
              = fun q : PlayerRow => q.id := by
            funext q
            by_cases hqe : (q.id == p0.id) = true
            · simp [Function.comp, hqe]
            · simp [Function.comp, hqe]
          rw [hfun]
          exact h.2
      · exact h
    · constructor
      · intro p hp
        simp only [List.mem_append, List.mem_singleton] at hp
        rcases hp with hmem | hrow
        · exact Nat.lt_succ_of_lt (h.1 p hmem)
        · rw [hrow]
          exact Nat.lt_succ_self _
      · simp only [List.map_append, List.map_cons, List.map_nil]
        rw [List.nodup_append]
        refine ⟨h.2, List.nodup_singleton _, ?_⟩
        intro a ha hb
        simp only [List.mem_singleton] at hb
        simp only [List.mem_map] at ha
        obtain ⟨q, hq, rfl⟩ := ha
        have := h.1 q hq
        omega

theorem add_penalty_wf (pid : Nat) (r : String) (a : ℚ) (e : Option String)
    (now : Nat) (s : LedgerState) (h : PlayersWF s) :
    PlayersWF ((add_penalty pid r a e now s).2) := h

theorem spondCount_witness_exists (x : String) (s : LedgerState)
    (h : 1 ≤ spondCount x s) :
    ∃ w ∈ s.players, (w.spond_id == some x) = true :=
  List.countP_pos_iff.mp h

theorem gocp_spondCount (n : String) (sid : Option String) (now : Nat)
    (s : LedgerState) (x : String) (hWF : PlayersWF s) (hx : x ≠ "")
    (h : 1 ≤ spondCount x s) :
    spondCount x ((get_or_create_player n sid now s).2) = spondCount x s := by
  obtain ⟨w, hwmem, hwx⟩ := spondCount_witness_exists x s h
  simp only [get_or_create_player]
  split
  · rfl
  · rename_i heqB
    split
    · rename_i p0 hfind
      split
      · rename_i hguard
        rw [Bool.and_eq_true] at hguard
        obtain ⟨hsid, hp0f⟩ := hguard
        rw [Bool.not_eq_true'] at hp0f
        rw [if_pos hsid] at heqB
        have hnot : ∀ q ∈ s.players, ¬((q.spond_id == sid) = true) :=
          List.find?_eq_none.mp heqB
        have hsidx : sid ≠ some x := by
          intro hcon
          apply hnot w hwmem
          rw [hcon]
          exact hwx
        rw [spondCount, spondCount]
        simp only
        rw [List.countP_map]
        apply countP_congr_mem
        intro q hq
        by_cases hid : (q.id == p0.id) = true
        · have hq0 : q = p0 := by
            have hp0mem : p0 ∈ s.players := List.mem_of_find?_eq_some hfind
            exact List.inj_on_of_nodup_map hWF.2 hq hp0mem (by
              simpa using eq_of_beq hid)
          have h1 : (sid == some x) = false := by
            rw [beq_eq_false_iff_ne]
            exact hsidx
          have h2 : (q.spond_id == some x) = false := by
            rw [beq_eq_false_iff_ne]
            intro hcc
            rw [hq0] at hcc
            rw [hcc] at hp0f
            simp only [optTruthy] at hp0f
            rw [Bool.not_eq_false'] at hp0f
            rw [String.isEmpty_iff] at hp0f
            exact hx hp0f
          simp only [Function.comp, hid, if_true]
          rw [h1, h2]
        · simp [Function.comp, hid]
      · rfl
    · rename_i hfindN
      rw [spondCount, spondCount]
      simp only
      rw [List.countP_append, List.countP_cons, List.countP_nil]
      have hrow : (sid == some x) = false := by
        rw [beq_eq_false_iff_ne]
        intro hcon
        by_cases hts : optTruthy sid = true
        · rw [if_pos hts] at heqB
          exact List.find?_eq_none.mp heqB w hwmem (by rw [hcon]; exact hwx)
        · rw [hcon] at hts
          simp only [optTruthy, Bool.not_eq_true, Bool.not_eq_false'] at hts
          rw [String.isEmpty_iff] at hts
          exact hx hts
      simp [hrow]

theorem syncMember_spond_wf (ev : SyncEvent) (roster : List Member)
    (amount : ℚ) (now : Nat) (acc : SyncResult × LedgerState) (mid : String)
    (x : String) (hx : x ≠ "") (hWF : PlayersWF acc.2)
    (h : 1 ≤ spondCount x acc.2) :
    spondCount x ((syncMember ev roster amount now acc mid).2) = spondCount x acc.2
    ∧ PlayersWF ((syncMember ev roster amount now acc mid).2) := by
  simp only [syncMember]
  cases hm : lookupMember roster mid with
  | none => exact ⟨rfl, hWF⟩
  | some m =>
    dsimp only
    by_cases hn : fullName m = ""
    · rw [if_pos hn]
      exact ⟨rfl, hWF⟩
    · rw [if_neg hn]
      have hsp := gocp_spondCount (fullName m) (some mid) now acc.2 x hWF hx h
      have hwf := gocp_wf (fullName m) (some mid) now acc.2 hWF
      by_cases hpe : penalty_exists
          (get_or_create_player (fullName m) (some mid) now acc.2).1.id ev.id
          (get_or_create_player (fullName m) (some mid) now acc.2).2 = true
      · rw [if_pos hpe]
        exact ⟨hsp, hwf⟩
      · rw [if_neg hpe]
        dsimp only
        exact ⟨hsp, hwf⟩

theorem syncMember_wf (ev : SyncEvent) (roster : List Member)
    (amount : ℚ) (now : Nat) (acc : SyncResult × LedgerState) (mid : String)
    (hWF : PlayersWF acc.2) :
    PlayersWF ((syncMember ev roster amount now acc mid).2) := by
  simp only [syncMember]
  cases hm : lookupMember roster mid with
  | none => exact hWF
  | some m =>
    dsimp only
    by_cases hn : fullName m = ""
    · rw [if_pos hn]
      exact hWF
    · rw [if_neg hn]
      have hwf := gocp_wf (fullName m) (some mid) now acc.2 hWF
      by_cases hpe : penalty_exists
          (get_or_create_player (fullName m) (some mid) now acc.2).1.id ev.id
          (get_or_create_player (fullName m) (some mid) now acc.2).2 = true
      · rw [if_pos hpe]
        exact hwf
      · rw [if_neg hpe]
        dsimp only
        exact hwf

theorem memberFold_spond_wf (ev : SyncEvent) (roster : List Member)
    (amount : ℚ) (now : Nat) (x : String) (hx : x ≠ "") :
    ∀ (mids : List String) (acc : SyncResult × LedgerState),
      PlayersWF acc.2 → 1 ≤ spondCount x acc.2 →
      spondCount x ((mids.foldl (syncMember ev roster amount now) acc).2)
          = spondCount x acc.2
      ∧ PlayersWF ((mids.foldl (syncMember ev roster amount now) acc).2) := by
  intro mids
  induction mids with
  | nil => intro acc hWF h; exact ⟨rfl, hWF⟩
  | cons hd t ih =>
    intro acc hWF h
    rw [List.foldl_cons]
    obtain ⟨hsp, hwf⟩ := syncMember_spond_wf ev roster amount now acc hd x hx hWF h
    obtain ⟨hsp2, hwf2⟩ := ih _ hwf (by rw [hsp]; exact h)
    exact ⟨by rw [hsp2, hsp], hwf2⟩

theorem eventFold_spond_wf (roster : List Member) (amount : ℚ) (now : Nat)
    (x : String) (hx : x ≠ "") :
    ∀ (evs : List SyncEvent) (acc : SyncResult × LedgerState),
      PlayersWF acc.2 → 1 ≤ spondCount x acc.2 →
      spondCount x ((evs.foldl (syncEvent roster amount now) acc).2)
          = spondCount x acc.2
      ∧ PlayersWF ((evs.foldl (syncEvent roster amount now) acc).2) := by
  intro evs
  induction evs with
  | nil => intro acc hWF h; exact ⟨rfl, hWF⟩
  | cons hd t ih =>
    intro acc hWF h
    rw [List.foldl_cons]
    have hstep := memberFold_spond_wf hd roster amount now x hx
      (noReplyIds roster hd.responses) acc hWF h
    rw [show List.foldl (syncMember hd roster amount now) acc
        (noReplyIds roster hd.responses) = syncEvent roster amount now acc hd from rfl]
      at hstep
    obtain ⟨hsp, hwf⟩ := hstep
    obtain ⟨hsp2, hwf2⟩ := ih _ hwf (by rw [hsp]; exact h)
    exact ⟨by rw [hsp2, hsp], hwf2⟩

/-- C1: a reconciliation run adds no penalty row for any (player, event)
pair that already has one (so a second run over overlapping windows
issues zero additional penalties for already-fined pairs), creates no
duplicate Player row for an external id already present in the
well-formed store, and preserves the invariant that every non-null
(player id, event id) pair has at most one penalty row. -/
theorem sync_idempotent_dedup (events : List SyncEvent) (roster : List Member)
    (amount : ℚ) (now : Nat) (s : LedgerState) :
    (∀ pid eid, 1 ≤ penCount pid eid s →
      penCount pid eid ((sync_spond events roster amount now s).2)
        = penCount pid eid s)
  ∧ (∀ x, x ≠ "" → PlayersWF s → 1 ≤ spondCount x s →
      spondCount x ((sync_spond events roster amount now s).2) = spondCount x s)
  ∧ ((∀ pid eid, penCount pid eid s ≤ 1) →
      ∀ pid eid, penCount pid eid ((sync_spond events roster amount now s).2) ≤ 1) := by
  refine ⟨?_, ?_, ?_⟩
  · intro pid eid h
    rw [sync_spond]
    exact eventFold_penCount_keep roster amount now pid eid events _ h
  · intro x hx hWF h
    rw [sync_spond]
    exact (eventFold_spond_wf roster amount now x hx events _ hWF h).1
  · intro hinv pid eid
    rw [sync_spond]
    exact eventFold_penCount_le roster amount now pid eid events _ (hinv pid eid)

/-- Sample pre-state for the idempotence witness: the store already
contains the player with external id m1 and that player already has a
penalty for event E1. -/
def idemSample : LedgerState :=
  { emptyLedger with
    players := [{ id := 1, name := "Max Mustermann", spond_id := some "m1",
                  created_at := 0 }],
    penalties := [{ id := 1, player_id := 1, reason := "Spond nicht beantwortet: T",
                    amount := 2, paid := false, event_id := some "E1",
                    created_at := 0, paid_at := none }],
    nextPlayerId := 2, nextPenaltyId := 2 }

/-- The same event fetched again in a second run over an overlapping
window. -/
def idemEvent : SyncEvent :=
  { id := "E1", heading := some "T", startTimestamp := "2026-01-01T10:00:00Z",
    responses := { acceptedIds := [], declinedIds := [], waitinglistIds := [],
                   unconfirmedIds := [] },
    cancelled := false, expired := true }

/-- Witness for C1: re-running over the already-processed event adds no
penalty for the already-fined pair, no duplicate player row for the
known external id m1, and keeps every pair at one row at most. -/
theorem sync_idempotent_dedup_witness :
    penCount 1 "E1" ((sync_spond [idemEvent]
        [{ id := "m1", firstName := "Max", lastName := "Mustermann" }]
        2 5 idemSample).2) = penCount 1 "E1" idemSample
  ∧ spondCount "m1" ((sync_spond [idemEvent]
        [{ id := "m1", firstName := "Max", lastName := "Mustermann" }]
        2 5 idemSample).2) = spondCount "m1" idemSample
  ∧ ∀ pid eid, penCount pid eid ((sync_spond [idemEvent]
        [{ id := "m1", firstName := "Max", lastName := "Mustermann" }]
        2 5 idemSample).2) ≤ 1 :=
  ⟨(sync_idempotent_dedup [idemEvent]
      [{ id := "m1", firstName := "Max", lastName := "Mustermann" }]
      2 5 idemSample).1 1 "E1" (by decide),
   (sync_idempotent_dedup [idemEvent]
      [{ id := "m1", firstName := "Max", lastName := "Mustermann" }]
      2 5 idemSample).2.1 "m1" (by decide) ⟨by decide, by decide⟩ (by decide),
   (sync_idempotent_dedup [idemEvent]
      [{ id := "m1", firstName := "Max", lastName := "Mustermann" }]
      2 5 idemSample).2.2 (fun pid eid =>
        le_trans (List.countP_le_length _) (by decide))⟩

/-- Modelled from the spec: the consumer-facing report shape of the
final reconciliation engine, with the five keys events_checked,
skipped_expired, new_penalties, players_synced and details.  The engine
version in src/spond_sync.py is an earlier draft without the
skipped_expired key; its caller in bot.py already reads this key and
passes a from_date argument, so the final engine module is missing from
the sources and is modelled here from the specification. -/
structure SpecSyncResult where
  events_checked : Nat
  skipped_expired : Nat
  new_penalties : Nat
  players_synced : Nat
  details : List String
  deriving DecidableEq, Repr

/-- Modelled from the spec: step 2 of the reconciliation algorithm,
upserting every roster member into the ledger store (attaching the
external id) before any event is processed. -/
def upsertRoster (roster : List Member) (now : Nat) (s : LedgerState) :
    LedgerState :=
  roster.foldl
    (fun st m => (get_or_create_player (fullName m) (some m.id) now st).2) s

/-- Modelled from the spec: step 3d of the reconciliation algorithm for
one no-reply member — resolve the display name (skip silently when
empty), upsert the player, and issue the flat penalty tagged with the
event id unless one already exists for the (player, event) pair. -/
def syncMemberSpec (ev : SyncEvent) (roster : List Member) (amount : ℚ)
    (now : Nat) (acc : SpecSyncResult × LedgerState) (mid : String) :
    SpecSyncResult × LedgerState :=
  match lookupMember roster mid with
  | none => acc
  | some m =>
    if fullName m = "" then acc
    else
      let pr := get_or_create_player (fullName m) (some mid) now acc.2
      let res1 := { acc.1 with players_synced := acc.1.players_synced + 1 }
      if penalty_exists pr.1.id ev.id pr.2 then (res1, pr.2)
      else
        let ap := add_penalty pr.1.id ("no reply: " ++ eventName ev)
          amount (some ev.id) now pr.2
        ({ res1 with new_penalties := res1.new_penalties + 1,
                     details := res1.details ++ [detailLine (fullName m) ev] }, ap.2)

/-- Modelled from the spec: steps 3a to 3d for one event — a cancelled
event is skipped entirely (no penalty, not counted anywhere), an event
whose response deadline has not yet elapsed is skipped incrementing
skipped_expired, and only past-deadline events reach the classifier and
the member loop. -/
def syncEventSpec (roster : List Member) (amount : ℚ) (now : Nat)
    (acc : SpecSyncResult × LedgerState) (ev : SyncEvent) :
    SpecSyncResult × LedgerState :=
  if ev.cancelled then acc
  else
    let res1 := { acc.1 with events_checked := acc.1.events_checked + 1 }
    if !ev.expired then
      ({ res1 with skipped_expired := res1.skipped_expired + 1 }, acc.2)
    else
      (noReplyIds roster ev.responses).foldl
        (syncMemberSpec ev roster amount now) (res1, acc.2)

/-- Modelled from the spec: the final reconciliation engine — upsert the
whole roster first, then process the fetched events in order, returning
the aggregated report. -/
def sync_spond_spec (events : List SyncEvent) (roster : List Member)
    (amount : ℚ) (now : Nat) (s : LedgerState) :
    SpecSyncResult × LedgerState :=
  events.foldl (syncEventSpec roster amount now)
    ({ events_checked := 0, skipped_expired := 0, new_penalties := 0,
       players_synced := 0, details := [] }, upsertRoster roster now s)

theorem upsertRoster_penalties (now : Nat) :
    ∀ (roster : List Member) (s : LedgerState),
      (upsertRoster roster now s).penalties = s.penalties := by
  intro roster
  induction roster with
  | nil => intro s; rfl
  | cons m t ih =>
    intro s
    rw [upsertRoster, List.foldl_cons]
    have := ih ((get_or_create_player (fullName m) (some m.id) now s).2)
    rw [upsertRoster] at this
    rw [this, gocp_penalties]

theorem evPenCount_gocp (eid n : String) (sid : Option String) (now : Nat)
    (s : LedgerState) :
    evPenCount eid ((get_or_create_player n sid now s).2) = evPenCount eid s := by
  rw [evPenCount, evPenCount, gocp_penalties]

theorem evPenCount_add_penalty (eid : String) (pid : Nat) (r : String) (a : ℚ)
    (e : Option String) (now : Nat) (s : LedgerState) :
    evPenCount eid ((add_penalty pid r a e now s).2)
      = evPenCount eid s + (if (e == some eid) = true then 1 else 0) := by
  simp only [add_penalty, evPenCount]
  rw [List.countP_append, List.countP_cons, List.countP_nil]
  simp

theorem syncMemberSpec_evPen (ev : SyncEvent) (roster : List Member)
    (amount : ℚ) (now : Nat) (acc : SpecSyncResult × LedgerState) (mid : String)
    (eid : String) (h : ev.id ≠ eid) :
    evPenCount eid ((syncMemberSpec ev roster amount now acc mid).2)
      = evPenCount eid acc.2 := by
  simp only [syncMemberSpec]
  cases hm : lookupMember roster mid with
  | none => rfl
  | some m =>
    dsimp only
    by_cases hn : fullName m = ""
    · rw [if_pos hn]
    · rw [if_neg hn]
      by_cases hpe : penalty_exists
          (get_or_create_player (fullName m) (some mid) now acc.2).1.id ev.id
          (get_or_create_player (fullName m) (some mid) now acc.2).2 = true
      · rw [if_pos hpe]
        exact evPenCount_gocp eid (fullName m) (some mid) now acc.2
      · rw [if_neg hpe]
        dsimp only
        rw [evPenCount_add_penalty, evPenCount_gocp]
        have hbe : ((some ev.id : Option String) == some eid) = false := by
          rw [beq_eq_false_iff_ne]
          intro hcc
          exact h (Option.some_injective _ hcc)
        rw [hbe]
        simp

theorem memberFoldSpec_evPen (ev : SyncEvent) (roster : List Member)
    (amount : ℚ) (now : Nat) (eid : String) (h : ev.id ≠ eid) :
    ∀ (mids : List String) (acc : SpecSyncResult × LedgerState),
      evPenCount eid ((mids.foldl (syncMemberSpec ev roster amount now) acc).2)
        = evPenCount eid acc.2 := by
  intro mids
  induction mids with
  | nil => intro acc; rfl
  | cons hd t ih =>
    intro acc
    rw [List.foldl_cons, ih, syncMemberSpec_evPen ev roster amount now acc hd eid h]

theorem syncMemberSpec_counts (ev : SyncEvent) (roster : List Member)
    (amount : ℚ) (now : Nat) (acc : SpecSyncResult × LedgerState) (mid : String) :
    ((syncMemberSpec ev roster amount now acc mid).1).events_checked
        = acc.1.events_checked
    ∧ ((syncMemberSpec ev roster amount now acc mid).1).skipped_expired
        = acc.1.skipped_expired := by
  simp only [syncMemberSpec]
  cases hm : lookupMember roster mid with
  | none => exact ⟨rfl, rfl⟩
  | some m =>
    dsimp only
    by_cases hn : fullName m = ""
    · rw [if_pos hn]
      exact ⟨rfl, rfl⟩
    · rw [if_neg hn]
      by_cases hpe : penalty_exists
          (get_or_create_player (fullName m) (some mid) now acc.2).1.id ev.id
          (get_or_create_player (fullName m) (some mid) now acc.2).2 = true
      · rw [if_pos hpe]
        exact ⟨rfl, rfl⟩
      · rw [if_neg hpe]
        exact ⟨rfl, rfl⟩

theorem memberFoldSpec_counts (ev : SyncEvent) (roster : List Member)
    (amount : ℚ) (now : Nat) :
    ∀ (mids : List String) (acc : SpecSyncResult × LedgerState),
      ((mids.foldl (syncMemberSpec ev roster amount now) acc).1).events_checked
          = acc.1.events_checked
      ∧ ((mids.foldl (syncMemberSpec ev roster amount now) acc).1).skipped_expired
          = acc.1.skipped_expired := by
  intro mids
  induction mids with
  | nil => intro acc; exact ⟨rfl, rfl⟩
  | cons hd t ih =>
    intro acc
    rw [List.foldl_cons]
    obtain ⟨h1, h2⟩ := ih (syncMemberSpec ev roster amount now acc hd)
    obtain ⟨h3, h4⟩ := syncMemberSpec_counts ev roster amount now acc hd
    exact ⟨by rw [h1, h3], by rw [h2, h4]⟩

theorem eventFoldSpec_checked (roster : List Member) (amount : ℚ) (now : Nat) :
    ∀ (evs : List SyncEvent) (acc : SpecSyncResult × LedgerState),
      ((evs.foldl (syncEventSpec roster amount now) acc).1).events_checked
        = acc.1.events_checked + (evs.filter (fun e => !e.cancelled)).length := by
  intro evs
  induction evs with
  | nil => intro acc; simp
  | cons hd t ih =>
    intro acc
    rw [List.foldl_cons, ih, List.filter_cons]
    by_cases hc : hd.cancelled = true
    · simp only [syncEventSpec, hc, if_true]
      simp [hc]
    · have hc2 : (!hd.cancelled) = true := by simp [hc]
      simp only [syncEventSpec]
      rw [if_neg hc]
      by_cases he : (!hd.expired) = true
      · rw [if_pos he]
        simp [hc2]
        omega
      · rw [if_neg he]
        rw [(memberFoldSpec_counts hd roster amount now _ _).1]
        simp [hc2]
        omega

theorem eventFoldSpec_skipped (roster : List Member) (amount : ℚ) (now : Nat) :
    ∀ (evs : List SyncEvent) (acc : SpecSyncResult × LedgerState),
      ((evs.foldl (syncEventSpec roster amount now) acc).1).skipped_expired
        = acc.1.skipped_expired
          + (evs.filter (fun e => !e.cancelled && !e.expired)).length := by
  intro evs
  induction evs with
  | nil => intro acc; simp
  | cons hd t ih =>
    intro acc
    rw [List.foldl_cons, ih, List.filter_cons]
    by_cases hc : hd.cancelled = true
    · simp only [syncEventSpec, hc, if_true]
      simp [hc]
    · simp only [syncEventSpec]
      rw [if_neg hc]
      by_cases he : (!hd.expired) = true
      · rw [if_pos he]
        simp [hc, he]
        omega
      · rw [if_neg he]
        rw [(memberFoldSpec_counts hd roster amount now _ _).2]
        have he2 : hd.expired = true := by
          rw [Bool.not_eq_true', Bool.not_eq_false] at he
          simpa using he
        simp [hc, he2]

theorem eventFoldSpec_evPen (roster : List Member) (amount : ℚ) (now : Nat)
    (eid : String) :
    ∀ (evs : List SyncEvent) (acc : SpecSyncResult × LedgerState),
      (∀ ev2 ∈ evs, ev2.id = eid → (ev2.cancelled = true ∨ ev2.expired = false)) →
      evPenCount eid ((evs.foldl (syncEventSpec roster amount now) acc).2)
        = evPenCount eid acc.2 := by
  intro evs
  induction evs with
  | nil => intro acc _; rfl
  | cons hd t ih =>
    intro acc hkeep
    rw [List.foldl_cons]
    have htail : ∀ ev2 ∈ t, ev2.id = eid → (ev2.cancelled = true ∨ ev2.expired = false) :=
      fun ev2 h2 => hkeep ev2 (by simp [h2])
    rw [ih _ htail]
    by_cases hc : hd.cancelled = true
    · simp only [syncEventSpec, hc, if_true]
    · simp only [syncEventSpec]
      rw [if_neg hc]
      by_cases he : (!hd.expired) = true
      · rw [if_pos he]
      · rw [if_neg he]
        have hid : hd.id ≠ eid := by
          intro hcc
          rcases hkeep hd (by simp) hcc with h1 | h1
          · exact hc h1
          · rw [Bool.not_eq_true', Bool.not_eq_false] at he
            rw [h1] at he
            cases he
        exact memberFoldSpec_evPen hd roster amount now eid hid _ _

/-- C2: in the (spec-modelled) final engine, a cancelled fetched event
never leads to a penalty tagged with its event id, whatever its
response lists hold, and cancelled events are not counted in the
events_checked total. -/
theorem cancelled_events_unpenalized (events : List SyncEvent)
    (roster : List Member) (amount : ℚ) (now : Nat) (s : LedgerState)
    (ev : SyncEvent) (_hmem : ev ∈ events) (_hc : ev.cancelled = true) :
    ((∀ ev2 ∈ events, ev2.id = ev.id → ev2.cancelled = true) →
      evPenCount ev.id ((sync_spond_spec events roster amount now s).2)
        = evPenCount ev.id s)
  ∧ ((sync_spond_spec events roster amount now s).1).events_checked
      = (events.filter (fun e => !e.cancelled)).length := by
  constructor
  · intro hall
    rw [sync_spond_spec]
    rw [eventFoldSpec_evPen roster amount now ev.id events _
      (fun ev2 h2 hid => Or.inl (hall ev2 h2 hid))]
    rw [evPenCount, evPenCount]
    dsimp only
    rw [upsertRoster_penalties]
  · rw [sync_spond_spec, eventFoldSpec_checked]
    simp

/-- A cancelled event with a response payload, for the C2 witness. -/
def c2Event : SyncEvent :=
  { id := "E9", heading := some "H", startTimestamp := "2026-01-02T10:00:00Z",
    responses := { acceptedIds := [RespEntry.bare "m1"], declinedIds := [],
                   waitinglistIds := [], unconfirmedIds := [] },
    cancelled := true, expired := true }

/-- Witness for C2: the cancelled event adds no penalty with its id and
is not counted as checked. -/
theorem cancelled_events_unpenalized_witness :
    evPenCount "E9" ((sync_spond_spec [c2Event]
        [{ id := "m1", firstName := "Max", lastName := "M" }]
        2 0 emptyLedger).2) = evPenCount "E9" emptyLedger
  ∧ ((sync_spond_spec [c2Event]
        [{ id := "m1", firstName := "Max", lastName := "M" }]
        2 0 emptyLedger).1).events_checked = 0 :=
  ⟨(cancelled_events_unpenalized [c2Event]
      [{ id := "m1", firstName := "Max", lastName := "M" }]
      2 0 emptyLedger c2Event (by decide) (by decide)).1 (by decide),
   ((cancelled_events_unpenalized [c2Event]
      [{ id := "m1", firstName := "Max", lastName := "M" }]
      2 0 emptyLedger c2Event (by decide) (by decide)).2).trans (by decide)⟩

/-- A cancelled event whose response deadline has not elapsed: the
engine skips it at the cancelled gate, before the deadline gate. -/
def c3Event : SyncEvent :=
  { id := "E3", heading := none, startTimestamp := "",
    responses := { acceptedIds := [], declinedIds := [],
                   waitinglistIds := [], unconfirmedIds := [] },
    cancelled := true, expired := false }

/-- Counterexample to C3 as stated: the run over the single fetched
event c3Event, whose deadline has not elapsed, leaves skipped_expired
at zero, because the cancelled check precedes the deadline check. -/
theorem skipped_expired_claim_counterexample :
    ¬ (∀ ev ∈ [c3Event], ev.expired = false →
        1 ≤ ((sync_spond_spec [c3Event] [] 2 0 emptyLedger).1).skipped_expired) := by
  decide

/-- C3 amended: in the (spec-modelled) final engine, every fetched
NON-CANCELLED event whose deadline has not elapsed is counted in
skipped_expired (which the five-field report carries to the caller),
and no penalty tagged with such an event id is issued. -/
theorem skipped_expired_amended (events : List SyncEvent)
    (roster : List Member) (amount : ℚ) (now : Nat) (s : LedgerState) :
    ((sync_spond_spec events roster amount now s).1).skipped_expired
      = (events.filter (fun e => !e.cancelled && !e.expired)).length
  ∧ (∀ ev ∈ events, ev.cancelled = false → ev.expired = false →
      (∀ ev2 ∈ events, ev2.id = ev.id → (ev2.cancelled = true ∨ ev2.expired = false)) →
      evPenCount ev.id ((sync_spond_spec events roster amount now s).2)
        = evPenCount ev.id s) := by
  constructor
  · rw [sync_spond_spec, eventFoldSpec_skipped]
    simp
  · intro ev hmem hc he hall
    rw [sync_spond_spec, eventFoldSpec_evPen roster amount now ev.id events _ hall]
    rw [evPenCount, evPenCount]
    dsimp only
    rw [upsertRoster_penalties]

/-- A live event whose response deadline has not elapsed, for the C3
witness. -/
def c3wEvent : SyncEvent :=
  { id := "E4", heading := some "T", startTimestamp := "2026-02-01T10:00:00Z",
    responses := { acceptedIds := [], declinedIds := [],
                   waitinglistIds := [], unconfirmedIds := [] },
    cancelled := false, expired := false }

/-- Witness for the amended C3: the open-deadline event is counted once
in skipped_expired and yields no penalty with its id. -/
theorem skipped_expired_amended_witness :
    ((sync_spond_spec [c3wEvent]
        [{ id := "m1", firstName := "Max", lastName := "M" }]
        2 0 emptyLedger).1).skipped_expired = 1
  ∧ evPenCount "E4" ((sync_spond_spec [c3wEvent]
        [{ id := "m1", firstName := "Max", lastName := "M" }]
        2 0 emptyLedger).2) = evPenCount "E4" emptyLedger :=
  ⟨((skipped_expired_amended [c3wEvent]
      [{ id := "m1", firstName := "Max", lastName := "M" }]
      2 0 emptyLedger).1).trans (by decide),
   (skipped_expired_amended [c3wEvent]
      [{ id := "m1", firstName := "Max", lastName := "M" }]
      2 0 emptyLedger).2 c3wEvent (by decide) (by decide) (by decide) (by decide)⟩

theorem gocp_names (n : String) (sid : Option String) (now : Nat)
    (s : LedgerState) :
    ∀ p ∈ ((get_or_create_player n sid now s).2).players,
      lowerStr p.name = lowerStr n
      ∨ ∃ q ∈ s.players, lowerStr p.name = lowerStr q.name := by
  simp only [get_or_create_player]
  split
  · intro p hp
    exact Or.inr ⟨p, hp, rfl⟩
  · split
    · rename_i p0 hfind
      split
      · intro p hp
        simp only [List.mem_map] at hp
        obtain ⟨q, hq, rfl⟩ := hp
        by_cases hqe : (q.id == p0.id) = true
        · simp only [hqe, if_true]
          exact Or.inr ⟨q, hq, rfl⟩
        · simp only [hqe, if_false]
          exact Or.inr ⟨q, hq, rfl⟩
      · intro p hp
        exact Or.inr ⟨p, hp, rfl⟩
    · intro p hp
      simp only [List.mem_append, List.mem_singleton] at hp
      rcases hp with hmem | hrow
      · exact Or.inr ⟨p, hmem, rfl⟩
      · rw [hrow]
        exact Or.inl rfl

theorem gocp_establishes (n x : String) (now : Nat) (s : LedgerState)
    (hx : x ≠ "")
    (hfresh : ∀ p ∈ s.players, lowerStr p.name ≠ lowerStr n) :
    1 ≤ spondCount x ((get_or_create_player n (some x) now s).2) := by
  have hie : x.isEmpty = false := by
    by_contra hcc
    rw [Bool.not_eq_false] at hcc
    exact hx ((String.isEmpty_iff x).mp hcc)
  have htr : optTruthy (some x) = true := by
    simp [optTruthy, hie]
  simp only [get_or_create_player]
  split
  · rename_i p hfound
    rw [if_pos htr] at hfound
    have h1 := List.find?_some hfound
    exact List.countP_pos_iff.mpr
      ⟨p, List.mem_of_find?_eq_some hfound, h1⟩
  · have hfn : s.players.find? (fun p => lowerStr p.name == lowerStr n) = none := by
      rw [List.find?_eq_none]
      intro p hp hbeq
      exact hfresh p hp (eq_of_beq hbeq)
    rw [hfn]
    apply List.countP_pos_iff.mpr
    refine ⟨{ id := s.nextPlayerId, name := n, spond_id := some x,
              created_at := now }, ?_, ?_⟩
    · simp
    · simp

theorem upsertRoster_wf (now : Nat) :
    ∀ (roster : List Member) (s : LedgerState), PlayersWF s →
      PlayersWF (upsertRoster roster now s) := by
  intro roster
  induction roster with
  | nil => intro s h; exact h
  | cons m t ih =>
    intro s h
    rw [upsertRoster, List.foldl_cons]
    exact ih _ (gocp_wf (fullName m) (some m.id) now s h)

theorem upsertRoster_preserves (now : Nat) (x : String) (hx : x ≠ "") :
    ∀ (roster : List Member) (s : LedgerState), PlayersWF s →
      1 ≤ spondCount x s →
      spondCount x (upsertRoster roster now s) = spondCount x s := by
  intro roster
  induction roster with
  | nil => intro s _ _; rfl
  | cons m t ih =>
    intro s hWF h
    rw [upsertRoster, List.foldl_cons]
    have hsp := gocp_spondCount (fullName m) (some m.id) now s x hWF hx h
    have hwf := gocp_wf (fullName m) (some m.id) now s hWF
    have := ih _ hwf (by rw [hsp]; exact h)
    rw [upsertRoster] at this
    rw [this, hsp]

theorem upsertRoster_establishes (now : Nat) :
    ∀ (roster : List Member) (s : LedgerState),
      PlayersWF s →
      (∀ m ∈ roster, m.id ≠ "") →
      ((roster.map (fun m => lowerStr (fullName m))).Nodup) →
      (∀ m ∈ roster, ∀ p ∈ s.players, lowerStr p.name ≠ lowerStr (fullName m)) →
      ∀ m ∈ roster, 1 ≤ spondCount m.id (upsertRoster roster now s) := by
  intro roster
  induction roster with
  | nil =>
    intro s _ _ _ _ m hm
    cases hm
  | cons m0 t ih =>
    intro s hWF hIds hNames hFresh m hm
    rw [upsertRoster, List.foldl_cons]
    have hwf1 : PlayersWF ((get_or_create_player (fullName m0) (some m0.id) now s).2) :=
      gocp_wf (fullName m0) (some m0.id) now s hWF
    have hfoldt : ∀ st : LedgerState,
        List.foldl (fun st m => (get_or_create_player (fullName m) (some m.id) now st).2) st t
          = upsertRoster t now st := fun st => rfl
    rcases List.mem_cons.mp hm with hm0 | hmt
    · subst hm0
      have hest : 1 ≤ spondCount m.id
          ((get_or_create_player (fullName m) (some m.id) now s).2) :=
        gocp_establishes (fullName m) m.id now s (hIds m (by simp))
          (fun p hp => hFresh m (by simp) p hp)
      rw [hfoldt, upsertRoster_preserves now m.id (hIds m (by simp)) t _ hwf1 hest]
      exact hest
    · have hNamesT : (t.map (fun m => lowerStr (fullName m))).Nodup :=
        (List.nodup_cons.mp hNames).2
      have hHeadFresh : lowerStr (fullName m0) ∉ t.map (fun m => lowerStr (fullName m)) :=
        (List.nodup_cons.mp hNames).1
      have hFreshT : ∀ m2 ∈ t, ∀ p ∈
          ((get_or_create_player (fullName m0) (some m0.id) now s).2).players,
          lowerStr p.name ≠ lowerStr (fullName m2) := by
        intro m2 hm2 p hp heq
        rcases gocp_names (fullName m0) (some m0.id) now s p hp with hL | ⟨q, hq, hEqn⟩
        · apply hHeadFresh
          rw [← hL, heq]
          exact List.mem_map.mpr ⟨m2, hm2, rfl⟩
        · exact hFresh m2 (by simp [hm2]) q hq (by rw [← hEqn]; exact heq)
      rw [hfoldt]
      exact ih _ hwf1 (fun m2 hm2 => hIds m2 (by simp [hm2])) hNamesT hFreshT m hmt

theorem syncMemberSpec_spond_wf (ev : SyncEvent) (roster : List Member)
    (amount : ℚ) (now : Nat) (acc : SpecSyncResult × LedgerState) (mid : String)
    (x : String) (hx : x ≠ "") (hWF : PlayersWF acc.2)
    (h : 1 ≤ spondCount x acc.2) :
    spondCount x ((syncMemberSpec ev roster amount now acc mid).2)
        = spondCount x acc.2
    ∧ PlayersWF ((syncMemberSpec ev roster amount now acc mid).2) := by
  simp only [syncMemberSpec]
  cases hm : lookupMember roster mid with
  | none => exact ⟨rfl, hWF⟩
  | some m =>
    dsimp only
    by_cases hn : fullName m = ""
    · rw [if_pos hn]
      exact ⟨rfl, hWF⟩
    · rw [if_neg hn]
      have hsp := gocp_spondCount (fullName m) (some mid) now acc.2 x hWF hx h
      have hwf := gocp_wf (fullName m) (some mid) now acc.2 hWF
      by_cases hpe : penalty_exists
          (get_or_create_player (fullName m) (some mid) now acc.2).1.id ev.id
          (get_or_create_player (fullName m) (some mid) now acc.2).2 = true
      · rw [if_pos hpe]
        exact ⟨hsp, hwf⟩
      · rw [if_neg hpe]
        dsimp only
        exact ⟨hsp, hwf⟩

theorem memberFoldSpec_spond_wf (ev : SyncEvent) (roster : List Member)
    (amount : ℚ) (now : Nat) (x : String) (hx : x ≠ "") :
    ∀ (mids : List String) (acc : SpecSyncResult × LedgerState),
      PlayersWF acc.2 → 1 ≤ spondCount x acc.2 →
      spondCount x ((mids.foldl (syncMemberSpec ev roster amount now) acc).2)
          = spondCount x acc.2
      ∧ PlayersWF ((mids.foldl (syncMemberSpec ev roster amount now) acc).2) := by
  intro mids
  induction mids with
  | nil => intro acc hWF h; exact ⟨rfl, hWF⟩
  | cons hd t ih =>
    intro acc hWF h
    rw [List.foldl_cons]
    obtain ⟨hsp, hwf⟩ := syncMemberSpec_spond_wf ev roster amount now acc hd x hx hWF h
    obtain ⟨hsp2, hwf2⟩ := ih _ hwf (by rw [hsp]; exact h)
    exact ⟨by rw [hsp2, hsp], hwf2⟩

theorem eventFoldSpec_spond_wf (roster : List Member) (amount : ℚ) (now : Nat)
    (x : String) (hx : x ≠ "") :
    ∀ (evs : List SyncEvent) (acc : SpecSyncResult × LedgerState),
      PlayersWF acc.2 → 1 ≤ spondCount x acc.2 →
      spondCount x ((evs.foldl (syncEventSpec roster amount now) acc).2)
          = spondCount x acc.2
      ∧ PlayersWF ((evs.foldl (syncEventSpec roster amount now) acc).2) := by
  intro evs
  induction evs with
  | nil => intro acc hWF h; exact ⟨rfl, hWF⟩
  | cons hd t ih =>
    intro acc hWF h
    rw [List.foldl_cons]
    have hstep : spondCount x ((syncEventSpec roster amount now acc hd).2)
          = spondCount x acc.2
        ∧ PlayersWF ((syncEventSpec roster amount now acc hd).2) := by
      simp only [syncEventSpec]
      by_cases hc : hd.cancelled = true
      · rw [if_pos hc]
        exact ⟨rfl, hWF⟩
      · rw [if_neg hc]
        by_cases he : (!hd.expired) = true
        · rw [if_pos he]
          exact ⟨rfl, hWF⟩
        · rw [if_neg he]
          exact memberFoldSpec_spond_wf hd roster amount now x hx _ _ hWF h
    obtain ⟨hsp, hwf⟩ := hstep
    obtain ⟨hsp2, hwf2⟩ := ih _ hwf (by rw [hsp]; exact h)
    exact ⟨by rw [hsp2, hsp], hwf2⟩

/-- C4: in the (spec-modelled) final engine, every roster member is
upserted into the store with the external id attached before any event
is processed, so a player row carrying the member id exists after the
roster phase and still exists after the whole run, whatever the events
are — in particular for members with zero no-reply violations.  The
hypotheses rule out the degenerate inputs under which the source cannot
attach the id: an empty member id (falsy in the source), two roster
members sharing a display name, or a pre-existing row already occupying
a member display name. -/
theorem roster_members_upserted (events : List SyncEvent) (roster : List Member)
    (amount : ℚ) (now : Nat) (s : LedgerState)
    (hWF : PlayersWF s)
    (hIds : ∀ m ∈ roster, m.id ≠ "")
    (hNames : (roster.map (fun m => lowerStr (fullName m))).Nodup)
    (hFresh : ∀ m ∈ roster, ∀ p ∈ s.players, lowerStr p.name ≠ lowerStr (fullName m)) :
    (∀ m ∈ roster, ∃ p ∈ (upsertRoster roster now s).players, p.spond_id = some m.id)
  ∧ (∀ m ∈ roster, ∃ p ∈ ((sync_spond_spec events roster amount now s).2).players,
      p.spond_id = some m.id) := by
  have hEst : ∀ m ∈ roster, 1 ≤ spondCount m.id (upsertRoster roster now s) :=
    upsertRoster_establishes now roster s hWF hIds hNames hFresh
  have hWF1 : PlayersWF (upsertRoster roster now s) := upsertRoster_wf now roster s hWF
  constructor
  · intro m hm
    obtain ⟨p, hp, hbeq⟩ := List.countP_pos_iff.mp (hEst m hm)
    exact ⟨p, hp, eq_of_beq hbeq⟩
  · intro m hm
    have h2 := (eventFoldSpec_spond_wf roster amount now m.id (hIds m hm) events
      ({ events_checked := 0, skipped_expired := 0, new_penalties := 0,
         players_synced := 0, details := [] }, upsertRoster roster now s)
      hWF1 (hEst m hm)).1
    have h3 : 1 ≤ spondCount m.id ((sync_spond_spec events roster amount now s).2) := by
      rw [sync_spond_spec, h2]
      exact hEst m hm
    obtain ⟨p, hp, hbeq⟩ := List.countP_pos_iff.mp h3
    exact ⟨p, hp, eq_of_beq hbeq⟩

/-- Witness for C4: both roster members get a player row carrying their
external id even though the only processed event names no no-reply
member for one of them (and the event list leaves member m2 with zero
violations). -/
theorem roster_members_upserted_witness :
    (∃ p ∈ ((sync_spond_spec [idemEvent]
        [{ id := "m1", firstName := "Max", lastName := "Mustermann" },
         { id := "m2", firstName := "Mia", lastName := "Muster" }]
        2 0 emptyLedger).2).players, p.spond_id = some "m2")
  ∧ (∃ p ∈ (upsertRoster
        [{ id := "m1", firstName := "Max", lastName := "Mustermann" },
         { id := "m2", firstName := "Mia", lastName := "Muster" }] 0
        emptyLedger).players, p.spond_id = some "m2") :=
  ⟨(roster_members_upserted [idemEvent]
      [{ id := "m1", firstName := "Max", lastName := "Mustermann" },
       { id := "m2", firstName := "Mia", lastName := "Muster" }]
      2 0 emptyLedger ⟨by decide, by decide⟩ (by decide) (by decide)
      (by decide)).2
      { id := "m2", firstName := "Mia", lastName := "Muster" } (by decide),
   (roster_members_upserted [idemEvent]
      [{ id := "m1", firstName := "Max", lastName := "Mustermann" },
       { id := "m2", firstName := "Mia", lastName := "Muster" }]
      2 0 emptyLedger ⟨by decide, by decide⟩ (by decide) (by decide)
      (by decide)).1
      { id := "m2", firstName := "Mia", lastName := "Muster" } (by decide)⟩
